import Mathlib

/-!
Shallow embedding of `src/request.go` (package gohttp): a fluent builder for
HTTP requests.  Go values are modelled as follows: `[]byte` / `bytes.Buffer`
contents are `String`s, Go maps are association lists (the list order is the
iteration order a run of the Go program observes; map claims quantify over
orders or assume distinct keys), pointers that merely alias the multipart
buffer are the tag `BodySrc.multipartRef`, `nil` pointers are `Option.none`,
and panics are `Option.none` results.  The platform HTTP stack is abstracted
by oracles: an `Env` for `http.NewRequest` URL/method validation and for
`client.Do`, a filesystem function for the upload calls, and a per-builder
boundary for the multipart RNG —
while the data those stdlib calls deterministically build (request fields,
header maps, multipart chunks, base64 basic-auth, URL query encoding, JSON
encoding) is modelled concretely.
-/

namespace GoHttp

/-- Model of a Go `error` value. -/
structure GoError where
  msg : String
deriving DecidableEq, Repr

/-- Opaque handle standing for an `*http.Transport`. -/
abbrev Transport := Nat

/-- Opaque handle standing for an `http.CookieJar`. -/
abbrev CookieJar := Nat

/-- Model of the `*http.Client` that `createClient` builds (request.go 58-73):
only the fields the source sets are kept. -/
structure Client where
  transport : Transport
  timeout : Nat
  jar : Option CookieJar
deriving DecidableEq, Repr

/-- Opaque handle standing for a non-background `context.Context`;
`Option Ctx` is used where Go has a possibly-nil context field, with `none`
standing for nil (and, on an `http.Request`, for `context.Background()`). -/
structure Ctx where
  id : Nat
deriving DecidableEq, Repr

/-- Opaque handle standing for the `*http.Response` produced by `client.Do`. -/
structure HttpResp where
  id : Nat
deriving DecidableEq, Repr

/-- Modelled from the spec: the `Response` wrapper type is declared outside
`src/` (only request.go is given); spec section 3 calls it a "thin wrapper
holding the completed platform response object", and request.go line 363
(`response.resp = resp`) shows its single field `resp`. -/
structure Response where
  resp : Option HttpResp := none
deriving DecidableEq, Repr

/-- What the `formVals *bytes.Buffer` field points at: either a buffer of its
own (set by `JSON`/`FormData`/`Body`/`Text`) or an alias of the builder's
`multipartBuffer` (set by `Upload`/`UploadFromReader`, request.go 215/235). -/
inductive BodySrc where
  | buf (s : String)
  | multipartRef
deriving DecidableEq, Repr

/-- Model of a `*multipart.Writer` over the builder's buffer: its boundary and
whether a part has been started (Go tracks this as `w.lastpart != nil`). -/
structure Writer where
  boundary : String
  hasPart : Bool
deriving DecidableEq, Repr

/-- MultipartParam (request.go 42-46); the `io.Reader` body is modelled by the
string of bytes it yields. -/
structure MultipartParam where
  FieldName : String
  FileName : String
  FileBody : String
deriving DecidableEq, Repr

/-! ### Byte-level string utilities (UTF-8, base64, URL escaping) -/

/-- UTF-8 encoding of one character, as byte values. -/
def utf8Bytes (c : Char) : List Nat :=
  let n := c.toNat
  if n < 128 then [n]
  else if n < 2048 then [192 + n / 64, 128 + n % 64]
  else if n < 65536 then [224 + n / 4096, 128 + (n / 64) % 64, 128 + n % 64]
  else [240 + n / 262144, 128 + (n / 4096) % 64, 128 + (n / 64) % 64, 128 + n % 64]

/-- The UTF-8 bytes of a string (Go strings are byte strings; `len`/indexing
in Go range over these bytes). -/
def strBytes (s : String) : List Nat :=
  s.data.foldr (fun c acc => utf8Bytes c ++ acc) []

/-- Uppercase hexadecimal digit, as used by Go's URL percent-escaping. -/
def hexUpper (n : Nat) : Char :=
  if n < 10 then Char.ofNat (48 + n) else Char.ofNat (55 + n)

/-- Lowercase hexadecimal digit, as used by Go's JSON `\u00xx` escapes. -/
def hexLower (n : Nat) : Char :=
  if n < 10 then Char.ofNat (48 + n) else Char.ofNat (87 + n)

/-- The standard base64 alphabet, position `n` (Go `encoding/base64.StdEncoding`). -/
def b64Char (n : Nat) : Char :=
  if n < 26 then Char.ofNat (65 + n)
  else if n < 52 then Char.ofNat (97 + (n - 26))
  else if n < 62 then Char.ofNat (48 + (n - 52))
  else if n = 62 then Char.ofNat 43
  else Char.ofNat 47

/-- Standard base64 of a byte list, with `=` padding. -/
def b64Chunks : List Nat → String
  | [] => ""
  | [a] => String.mk [b64Char (a / 4), b64Char (a % 4 * 16)] ++ "=="
  | [a, b] => String.mk [b64Char (a / 4), b64Char (a % 4 * 16 + b / 16), b64Char (b % 16 * 4)] ++ "="
  | a :: b :: c :: rest =>
      String.mk [b64Char (a / 4), b64Char (a % 4 * 16 + b / 16),
        b64Char (b % 16 * 4 + c / 64), b64Char (c % 64)] ++ b64Chunks rest

/-- Model of net/http `basicAuth`: base64 of `user:password`, the value that
`Request.SetBasicAuth` stores (after the `"Basic "` keyword). -/
def basicAuth (username password : String) : String :=
  b64Chunks (strBytes (username ++ ":" ++ password))

/-- Model of Go `url.QueryEscape` on a single byte: alphanumerics and
`-._~` are kept, space becomes `+`, everything else `%XX` (uppercase hex). -/
def queryEscapeByte (b : Nat) : String :=
  if 65 ≤ b ∧ b ≤ 90 then String.singleton (Char.ofNat b)
  else if 97 ≤ b ∧ b ≤ 122 then String.singleton (Char.ofNat b)
  else if 48 ≤ b ∧ b ≤ 57 then String.singleton (Char.ofNat b)
  else if b = 45 ∨ b = 46 ∨ b = 95 ∨ b = 126 then String.singleton (Char.ofNat b)
  else if b = 32 then "+"
  else String.mk [Char.ofNat 37, hexUpper (b / 16), hexUpper (b % 16)]

/-- Model of Go `url.QueryEscape`. -/
def queryEscape (s : String) : String :=
  String.join ((strBytes s).map queryEscapeByte)

/-- Lexicographic order on byte lists, as Go compares strings. -/
def natListLt : List Nat → List Nat → Bool
  | [], [] => false
  | [], _ :: _ => true
  | _ :: _, [] => false
  | a :: as, b :: bs => if a < b then true else if b < a then false else natListLt as bs

/-- Go's `s < t` on strings: byte-wise lexicographic comparison. -/
def strLt (s t : String) : Bool :=
  natListLt (strBytes s) (strBytes t)

/-- Insert a pair into a key-sorted association list (byte-wise string
order, as Go's sort compares strings). -/
def insertByKey {α : Type} (p : String × α) : List (String × α) → List (String × α)
  | [] => [p]
  | q :: rest => if strLt q.1 p.1 then q :: insertByKey p rest else p :: q :: rest

/-- Sort an association list by key, modelling the key sort Go performs in
`url.Values.Encode` and in `encoding/json` map encoding. -/
def sortByKey {α : Type} : List (String × α) → List (String × α)
  | [] => []
  | p :: rest => insertByKey p (sortByKey rest)

/-- Join strings with `&`, as `url.Values.Encode` does between pairs. -/
def joinAmp : List String → String
  | [] => ""
  | [x] => x
  | x :: y :: rest => x ++ "&" ++ joinAmp (y :: rest)

/-- Model of `url.Values.Encode` for the one-value-per-key values built by
`Query`/`FormData` (request.go 90-92/121-123): keys sorted, each pair
percent-escaped and written `k=v`, pairs joined with `&`. -/
def urlValuesEncode (vals : List (String × String)) : String :=
  joinAmp ((sortByKey vals).map fun p => queryEscape p.1 ++ "=" ++ queryEscape p.2)

/-! ### JSON encoding (model of `encoding/json.Marshal` on a `map[string]interface{}`) -/

/-- JSON values a `map[string]interface{}` entry may hold in this model
(nulls, booleans, integers, strings and arrays of these; Go encodes nested
maps the same way, with their keys sorted, but the claims only need the map
at top level, which `jsonMarshalMap` sorts). -/
inductive JVal where
  | null
  | bool (b : Bool)
  | num (n : Int)
  | str (s : String)
  | arr (xs : List JVal)

/-- Go's JSON escaping of one character: `"`, `\`, newline/CR/tab get their
two-character escapes, other control characters `\u00xx` (lowercase hex), and
— because `json.Marshal` HTML-escapes by default — `<`, `>`, `&` become
`<`, `>`, `&`; U+2028/U+2029 are escaped as well. -/
def jsonEscapeChar (c : Char) : String :=
  let n := c.toNat
  if n = 34 then "\\\""
  else if n = 92 then "\\\\"
  else if n = 10 then "\\n"
  else if n = 13 then "\\r"
  else if n = 9 then "\\t"
  else if n = 60 then "\\u003c"
  else if n = 62 then "\\u003e"
  else if n = 38 then "\\u0026"
  else if n < 32 then String.mk [Char.ofNat 92, Char.ofNat 117, Char.ofNat 48, Char.ofNat 48, hexLower (n / 16), hexLower (n % 16)]
  else if n = 8232 then "\\u2028"
  else if n = 8233 then "\\u2029"
  else String.singleton c

/-- Go's JSON escaping of a whole string body. -/
def jsonEscape (s : String) : String :=
  String.join (s.data.map jsonEscapeChar)

mutual

/-- Encoding of one JSON value, as `encoding/json` writes it. -/
def jsonEncode : JVal → String
  | .null => "null"
  | .bool true => "true"
  | .bool false => "false"
  | .num n => toString n
  | .str s => "\"" ++ jsonEscape s ++ "\""
  | .arr xs => "[" ++ String.intercalate "," (jsonEncodeList xs) ++ "]"

/-- Encodings of a list of JSON values. -/
def jsonEncodeList : List JVal → List String
  | [] => []
  | v :: vs => jsonEncode v :: jsonEncodeList vs

end

/-- Model of `json.Marshal` on a `map[string]interface{}`: keys sorted
byte-wise, each entry written `"key":value`, wrapped in braces. -/
def jsonMarshalMap (m : List (String × JVal)) : String :=
  "\x7b" ++ String.intercalate ","
    ((sortByKey m).map fun p => "\"" ++ jsonEscape p.1 ++ "\":" ++ jsonEncode p.2) ++ "\x7d"

/-! ### Header maps -/

/-- Model of `http.Header.Set` on a header association list: replace the value
under the key if present, else append the pair. -/
def headerSet : List (String × String) → String → String → List (String × String)
  | [], k, v => [(k, v)]
  | p :: rest, k, v => if p.1 = k then (k, v) :: rest else p :: headerSet rest k v

/-- Lookup in a header association list (also the model of a Go map read such
as `req.headers["Host"]`). -/
def headerGet : List (String × String) → String → Option String
  | [], _ => none
  | p :: rest, k => if p.1 = k then some p.2 else headerGet rest k

/-! ### The builder state (request.go 23-39) -/

/-- Configuration fields of the `Request` struct (request.go 23-39), i.e.
everything except the three hook lists, which are kept beside this record so
that hook functions — which in Go receive the builder — can be given this
record as their argument without a circular type.  `boundary` is the boundary
string the platform RNG will hand to `multipart.NewWriter` for this builder;
it is state of the modelled run, not a field of the Go struct. -/
structure RequestCore where
  transport : Option Transport := none
  client : Option Client := none
  cookie : Option CookieJar := none
  timeout : Nat := 0
  formVals : Option BodySrc := none
  multipartBuffer : String := ""
  queryVals : String := ""
  headers : Option (List (String × String)) := none
  writer : Option Writer := none
  contentType : String := ""
  basicUser : String := ""
  basicPasswd : String := ""
  ctx : Option Ctx := none
  boundary : String := "bnd"
deriving DecidableEq, Repr

/-- A registered `BeforeRequestHook` (`func(*Request) error`, request.go 17):
`run` gives the builder mutation it performs and the error it returns; `tag`
identifies the hook in event traces. -/
structure BeforeHook where
  tag : Nat
  run : RequestCore → RequestCore × Option GoError

/-- A registered `AfterResponseHook` (`func(*Response) error`, request.go 18):
`run` gives the mutation it performs on the wrapper it receives a pointer to,
and the error it returns. -/
structure AfterHook where
  tag : Nat
  run : Response → Response × Option GoError

/-- A registered `ErrorHook` (`func(*Request, error)`, request.go 19),
identified by its tag in event traces. -/
structure ErrHook where
  tag : Nat
deriving DecidableEq, Repr

/-- The `Request` builder (request.go 23-39): configuration fields plus the
three ordered hook lists. -/
structure Request where
  core : RequestCore := {}
  beforeRequestHooks : List BeforeHook := []
  afterResponseHooks : List AfterHook := []
  errorHooks : List ErrHook := []

/-- Modelled from the spec: the `Option` functional-option type is declared
outside `src/` (only request.go is given); spec section 6 says the recognized
option effects are setting the transport, the client, the cookie jar and the
timeout. -/
inductive GoOption where
  | withTransport (t : Transport)
  | withClient (c : Client)
  | withCookie (j : CookieJar)
  | withTimeout (n : Nat)
deriving DecidableEq, Repr

/-- Modelled from the spec: `o.apply(r)` for the four recognized options. -/
def GoOption.apply (o : GoOption) (c : RequestCore) : RequestCore :=
  match o with
  | .withTransport t => { c with transport := some t }
  | .withClient cl => { c with client := some cl }
  | .withCookie j => { c with cookie := some j }
  | .withTimeout n => { c with timeout := n }

/-- NewRequest (request.go 49-55): start from the zero value and apply each
option in order. -/
def NewRequest (opts : List GoOption) : Request :=
  { core := opts.foldl (fun c o => o.apply c) {} }

/-- Model of the outgoing `*http.Request` as far as request.go touches it:
method, URL, body reader contents (`none` for a nil body), header map, `Host`
field, and the context attached at construction (`none` stands for
`context.Background()`, which is what plain `http.NewRequest` attaches). -/
structure HttpRequest where
  method : String
  url : String
  body : Option String
  header : List (String × String)
  host : String
  ctx : Option Ctx
deriving DecidableEq, Repr

/-! ### Observable events of a dispatch -/

/-- The externally observable events a call to `makeRequest` produces, in
order: each before-request hook run, the single `client.Do` exchange with the
request it was handed, each error hook run, and each after-response hook run
with the wrapper value it was handed. -/
inductive Event where
  | beforeHook (tag : Nat)
  | netCall (r : HttpRequest)
  | errorHook (tag : Nat) (e : GoError)
  | afterHook (tag : Nat) (r : Response)
deriving DecidableEq, Repr

/-! ### Configuration mutators (request.go 76-144, 259-308) -/

/-- JSON (request.go 76-86): marshal the map, point `formVals` at a fresh
buffer holding the encoding and set the content type.  Marshalling of the
modelled value grammar always succeeds, so the panic branch is absent. -/
def Request.JSON (req : Request) (jsonBody : List (String × JVal)) : Request :=
  { req with core := { req.core with
      formVals := some (BodySrc.buf (jsonMarshalMap jsonBody)),
      contentType := "application/json" } }

/-- FormData (request.go 89-99): URL-encode the map into `formVals` and set
the form content type. -/
def Request.FormData (req : Request) (formValues : List (String × String)) : Request :=
  { req with core := { req.core with
      formVals := some (BodySrc.buf (urlValuesEncode formValues)),
      contentType := "application/x-www-form-urlencoded" } }

/-- Body (request.go 102-108): raw bytes into `formVals`, octet-stream
content type. -/
def Request.Body (req : Request) (formValues : String) : Request :=
  { req with core := { req.core with
      formVals := some (BodySrc.buf formValues),
      contentType := "application/octet-stream" } }

/-- Text (request.go 111-117): the string into `formVals`, text/plain
content type. -/
def Request.Text (req : Request) (formValues : String) : Request :=
  { req with core := { req.core with
      formVals := some (BodySrc.buf formValues),
      contentType := "text/plain" } }

/-- Query (request.go 120-130): URL-encode the map into `queryVals`; the
source also sets the content type to form-urlencoded as a side effect. -/
def Request.Query (req : Request) (formValues : List (String × String)) : Request :=
  { req with core := { req.core with
      queryVals := urlValuesEncode formValues,
      contentType := "application/x-www-form-urlencoded" } }

/-- Headers (request.go 133-136): replace the whole header map. -/
def Request.Headers (req : Request) (headerVals : List (String × String)) : Request :=
  { req with core := { req.core with headers := some headerVals } }

/-- BasicAuth (request.go 139-144): store the credentials. -/
def Request.BasicAuth (req : Request) (username password : String) : Request :=
  { req with core := { req.core with basicUser := username, basicPasswd := password } }

/-- OnBeforeRequest (request.go 259-262): append to the ordered hook list. -/
def Request.OnBeforeRequest (req : Request) (hook : BeforeHook) : Request :=
  { req with beforeRequestHooks := req.beforeRequestHooks ++ [hook] }

/-- OnAfterResponse (request.go 264-268): append to the ordered hook list. -/
def Request.OnAfterResponse (req : Request) (hook : AfterHook) : Request :=
  { req with afterResponseHooks := req.afterResponseHooks ++ [hook] }

/-- OnError (request.go 269-272): append to the ordered hook list. -/
def Request.OnError (req : Request) (errorHook : ErrHook) : Request :=
  { req with errorHooks := req.errorHooks ++ [errorHook] }

/-- Context (request.go 294-299): the stored context, `none` standing for the
`context.Background()` the source substitutes for nil. -/
def Request.Context (r : Request) : Option Ctx :=
  r.core.ctx

/-- SetContext (request.go 305-308): store the context. -/
def Request.SetContext (r : Request) (ctx : Ctx) : Request :=
  { r with core := { r.core with ctx := some ctx } }

/-! ### Multipart (request.go 182-257, over Go `mime/multipart`) -/

/-- Go mime/multipart `escapeQuotes`: backslashes and double quotes in field
and file names are backslash-escaped. -/
def escapeQuotes (s : String) : String :=
  String.join (s.data.map fun c =>
    if c.toNat = 92 then "\\\\"
    else if c.toNat = 34 then "\\\"" else String.singleton c)

/-- Install a `multipart.Writer` over the builder's buffer if none exists yet
(the `if req.writer == nil` guard of request.go 183-185 and friends); the
writer takes the boundary the platform RNG yields for this builder. -/
def ensureWriter (c : RequestCore) : RequestCore :=
  match c.writer with
  | none => { c with writer := some { boundary := c.boundary, hasPart := false } }
  | some _ => c

/-- The bytes `multipart.Writer.WriteField` appends for one plain field: the
boundary line (preceded by CRLF when a part was already written), the
Content-Disposition header, a blank line, then the value. -/
def fieldChunk (w : Writer) (key value : String) : String :=
  (if w.hasPart then "\r\n" else "") ++ "--" ++ w.boundary ++ "\r\n"
    ++ "Content-Disposition: form-data; name=\"" ++ escapeQuotes key ++ "\"\r\n"
    ++ "\r\n" ++ value

/-- One `writer.WriteField(key, val)` call (request.go 188): append the field
part to the multipart buffer and record that a part exists. -/
def writeField (c : RequestCore) (key value : String) : RequestCore :=
  match c.writer with
  | none => c
  | some w =>
      { c with multipartBuffer := c.multipartBuffer ++ fieldChunk w key value,
               writer := some { w with hasPart := true } }

/-- MultipartFormData (request.go 182-191): create the writer if needed, then
write one field per map entry, in the iteration order of the given run.  Note
the source never assigns `formVals` or `contentType` here. -/
def Request.MultipartFormData (req : Request) (formData : List (String × String)) : Request :=
  { req with core := formData.foldl (fun c p => writeField c p.1 p.2) (ensureWriter req.core) }

/-- The bytes `multipart.Writer.CreateFormFile` plus an `io.Copy` append for
one file part: boundary line, Content-Disposition with field and file names,
the octet-stream content type, a blank line, then the file bytes. -/
def fileChunk (w : Writer) (fieldname filename content : String) : String :=
  (if w.hasPart then "\r\n" else "") ++ "--" ++ w.boundary ++ "\r\n"
    ++ "Content-Disposition: form-data; name=\"" ++ escapeQuotes fieldname
    ++ "\"; filename=\"" ++ escapeQuotes filename ++ "\"\r\n"
    ++ "Content-Type: application/octet-stream\r\n"
    ++ "\r\n" ++ content

/-- `writer.CreateFormFile` followed by copying the content (request.go
206-212 / 226-232). -/
def writeFilePart (c : RequestCore) (fieldname filename content : String) : RequestCore :=
  match c.writer with
  | none => c
  | some w =>
      { c with multipartBuffer := c.multipartBuffer ++ fileChunk w fieldname filename content,
               writer := some { w with hasPart := true } }

/-- `writer.FormDataContentType()`: the multipart content type carrying the
boundary (unquoted, as for boundaries without special characters). -/
def formDataContentType (w : Writer) : String :=
  "multipart/form-data; boundary=" ++ w.boundary

/-! The filesystem read by `Upload` is an oracle `fs` mapping a path to the
file's bytes, `none` meaning `os.Open` fails; the source panics on that, which
the model renders as an `Option.none` result. -/

/-- Upload (request.go 194-217): create the writer if needed, open and copy
the file into a new file part, then set the multipart content type and point
`formVals` at the multipart buffer. -/
def Request.Upload (fs : String → Option String) (req : Request) (name file : String) : Option Request :=
  let c := ensureWriter req.core
  match fs file with
  | none => none
  | some content =>
      match c.writer with
      | none => none
      | some w =>
          let c := writeFilePart c name file content
          some { req with core := { c with
              contentType := formDataContentType w,
              formVals := some BodySrc.multipartRef } }

/-- UploadFromReader (request.go 220-237): like `Upload` but the part's
content comes from the supplied reader. -/
def Request.UploadFromReader (req : Request) (param : MultipartParam) : Option Request :=
  let c := ensureWriter req.core
  match c.writer with
  | none => none
  | some w =>
      let c := writeFilePart c param.FieldName param.FileName param.FileBody
      some { req with core := { c with
          contentType := formDataContentType w,
          formVals := some BodySrc.multipartRef } }

/-- Uploads (request.go 240-247): `Upload` for each map entry, in the
iteration order of the given run. -/
def Request.Uploads (fs : String → Option String) (req : Request) (files : List (String × String)) : Option Request :=
  files.foldlM (fun r p => Request.Upload fs r p.1 p.2) req

/-- UploadsFromReader (request.go 250-257): `UploadFromReader` for each
element of the slice, in order. -/
def Request.UploadsFromReader (req : Request) (params : List MultipartParam) : Option Request :=
  params.foldlM Request.UploadFromReader req

/-! ### Dispatch (request.go 58-73, 274-290, 311-367) -/

/-- Model of `strings.ToUpper` (request.go 315; character-wise upper-casing,
which agrees with Go on the ASCII method names the verb methods pass). -/
def strToUpper (s : String) : String :=
  String.mk (s.data.map Char.toUpper)

/-- Oracles for the platform behaviour dispatch delegates to:
`newRequestOk` is `http.NewRequest`'s method/URL validation (with
`newRequestErr` the error it would return), `hostOf` extracts `u.Host` from
the parsed URL, and `doReq` is the `client.Do` network exchange. -/
structure Env where
  newRequestOk : String → String → Bool
  newRequestErr : GoError
  hostOf : String → String
  doReq : Client → HttpRequest → Except GoError HttpResp

/-- Model of `http.NewRequest(method, url, body)`: validate, then build a
request carrying the method, the URL, the body, an empty header map, the host
taken from the URL, and — since plain `NewRequest` is
`NewRequestWithContext(context.Background(), ...)` — the background context
(`none`). -/
def newRequest (env : Env) (method url : String) (body : Option String) : Except GoError HttpRequest :=
  if env.newRequestOk method url then
    Except.ok { method := method, url := url, body := body,
                header := [], host := env.hostOf url, ctx := none }
  else
    Except.error env.newRequestErr

/-- createClient (request.go 58-73): fall back to the default transport, and
build (and cache) a client from transport, timeout and cookie jar if none was
supplied.  The default transport is the ambient `http.DefaultTransport`,
modelled as handle `0`. -/
def createClient (c : RequestCore) : Client × RequestCore :=
  let tr := c.transport.getD 0
  match c.client with
  | some cl => (cl, c)
  | none =>
      let cl : Client := { transport := tr, timeout := c.timeout, jar := c.cookie }
      (cl, { c with client := some cl })

/-- The `req.writer.Close()` of request.go 320-322: if a writer is active,
append the closing boundary `CRLF--boundary--CRLF` to the multipart buffer. -/
def closeWriter (c : RequestCore) : RequestCore :=
  match c.writer with
  | none => c
  | some w => { c with multipartBuffer := c.multipartBuffer ++ "\r\n--" ++ w.boundary ++ "--\r\n" }

/-- The bytes of the payload buffer handed to `http.NewRequest` for non-GET
verbs: the nil-buffer check of request.go 327-329 substitutes an empty
buffer, and a `formVals` that aliases the multipart buffer reads that buffer
as it stands at dispatch time. -/
def payloadString (c : RequestCore) : Option BodySrc → String
  | none => ""
  | some (BodySrc.buf s) => s
  | some BodySrc.multipartRef => c.multipartBuffer

/-- Steps of request.go 342-355 on the freshly built request: set
`Content-Type` from the builder (unconditionally, even when empty), set basic
auth when both credentials are non-empty, overwrite with every configured
header in map-iteration order, and override `Host` when that key is
configured. -/
def applyHeaderSteps (c : RequestCore) (r : HttpRequest) : HttpRequest :=
  let r := { r with header := headerSet r.header "Content-Type" c.contentType }
  let r := if c.basicUser ≠ "" ∧ c.basicPasswd ≠ "" then
      { r with header := headerSet r.header "Authorization" ("Basic " ++ basicAuth c.basicUser c.basicPasswd) }
    else r
  let hs := c.headers.getD []
  let r := { r with header := hs.foldl (fun h p => headerSet h p.1 p.2) r.header }
  match headerGet hs "Host" with
  | some v => { r with host := v }
  | none => r

/-- The outgoing request as `makeRequest` constructs it from the builder state
at dispatch time (request.go 315, 323-355): uppercase the verb, append the
query string when one is set, build with a nil body for GET and the payload
buffer otherwise, then apply the header steps. -/
def dispatchRequest (env : Env) (c : RequestCore) (verb url : String) (payloads : Option BodySrc) :
    Except GoError HttpRequest :=
  let verb := strToUpper verb
  let url := if c.queryVals = "" then url else url ++ "?" ++ c.queryVals
  let base :=
    if verb = "GET" then newRequest env verb url none
    else newRequest env verb url (some (payloadString c payloads))
  match base with
  | Except.error e => Except.error e
  | Except.ok r => Except.ok (applyHeaderSteps c r)

/-- The builder state each before-request hook observes is threaded to the
next one; the returned error is discarded, exactly as request.go 274-278
ignores the hook's return value. -/
def applyBefore : List BeforeHook → RequestCore → RequestCore
  | [], c => c
  | h :: hs, c => applyBefore hs (h.run c).1

/-- The events of running the before-request hooks, in registration order. -/
def beforeEvents (hs : List BeforeHook) : List Event :=
  hs.map fun h => Event.beforeHook h.tag

/-- ExecuteBeforeRequestHooks (request.go 274-278): run every registered hook
in order on the builder, ignoring returned errors. -/
def Request.ExecuteBeforeRequestHooks (req : Request) : RequestCore × List Event :=
  (applyBefore req.beforeRequestHooks req.core, beforeEvents req.beforeRequestHooks)

/-- The wrapper each after-response hook receives is the one local copy,
threaded through the hooks; each event records the wrapper value handed to
that hook, and returned errors are discarded (request.go 280-284). -/
def runAfter : List AfterHook → Response → List Event
  | [], _ => []
  | h :: hs, r => Event.afterHook h.tag r :: runAfter hs (h.run r).1

/-- ExecuteAfterResponseHooks (request.go 280-284): the wrapper is passed BY
VALUE into this function, so the hooks share one copy and the final mutated
copy is discarded. -/
def Request.ExecuteAfterResponseHooks (req : Request) (response : Response) : List Event :=
  runAfter req.afterResponseHooks response

/-- ExecuteOnErrorHooks (request.go 286-290): every registered error hook is
invoked once with the error, in registration order. -/
def Request.ExecuteOnErrorHooks (req : Request) (e : GoError) : List Event :=
  req.errorHooks.map fun h => Event.errorHook h.tag e

/-- The client `makeRequest` uses for the exchange (the `createClient` call of
request.go 318, after the before-hooks have run). -/
def clientAtDispatch (req : Request) : Client :=
  (createClient (applyBefore req.beforeRequestHooks req.core)).1

/-- The builder configuration at the moment the outgoing request is built:
after the before-hooks, the client creation and the writer close. -/
def coreAtDispatch (req : Request) : RequestCore :=
  closeWriter (createClient (applyBefore req.beforeRequestHooks req.core)).2

/-- makeRequest (request.go 311-367): run the before-request hooks, build the
client, close the multipart writer, construct the outgoing request; on
construction failure run the error hooks and return the error; otherwise
perform the exchange; on transport failure run the error hooks and return the
error; on success wrap the response, run the after-response hooks on a copy
of the wrapper and return the original wrapper.  The result pairs the Go
return value (`Except.error e` for `(nil, err)`, `Except.ok response` for
`(&response, nil)`) with the observable event trace. -/
def makeRequest (env : Env) (req0 : Request) (verb url : String) (payloads : Option BodySrc) :
    Except GoError Response × List Event :=
  let evBefore := beforeEvents req0.beforeRequestHooks
  let client := clientAtDispatch req0
  let c := coreAtDispatch req0
  match dispatchRequest env c verb url payloads with
  | Except.error e => (Except.error e, evBefore ++ req0.ExecuteOnErrorHooks e)
  | Except.ok r =>
      match env.doReq client r with
      | Except.error e =>
          (Except.error e, evBefore ++ [Event.netCall r] ++ req0.ExecuteOnErrorHooks e)
      | Except.ok resp =>
          let response : Response := { resp := some resp }
          (Except.ok response,
            evBefore ++ [Event.netCall r] ++ req0.ExecuteAfterResponseHooks response)

/-- Get (request.go 147-149): dispatch with method GET and the current
`formVals` as the payload argument. -/
def Request.Get (env : Env) (req : Request) (url : String) : Except GoError Response × List Event :=
  makeRequest env req "GET" url req.core.formVals

/-- Post (request.go 152-154). -/
def Request.Post (env : Env) (req : Request) (url : String) : Except GoError Response × List Event :=
  makeRequest env req "POST" url req.core.formVals

/-- Put (request.go 157-159). -/
def Request.Put (env : Env) (req : Request) (url : String) : Except GoError Response × List Event :=
  makeRequest env req "PUT" url req.core.formVals

/-- Patch (request.go 162-164). -/
def Request.Patch (env : Env) (req : Request) (url : String) : Except GoError Response × List Event :=
  makeRequest env req "PATCH" url req.core.formVals

/-- Delete (request.go 167-169). -/
def Request.Delete (env : Env) (req : Request) (url : String) : Except GoError Response × List Event :=
  makeRequest env req "DELETE" url req.core.formVals

/-- Head (request.go 172-174). -/
def Request.Head (env : Env) (req : Request) (url : String) : Except GoError Response × List Event :=
  makeRequest env req "HEAD" url req.core.formVals

/-- Options (request.go 177-179). -/
def Request.Options (env : Env) (req : Request) (url : String) : Except GoError Response × List Event :=
  makeRequest env req "OPTIONS" url req.core.formVals

/-- The URL the outgoing request targets (request.go 323-325): the given URL
with the configured query string appended after a `?` when one is set. -/
def dispatchUrl (c : RequestCore) (url : String) : String :=
  if c.queryVals = "" then url else url ++ "?" ++ c.queryVals

/-- The body handed to `http.NewRequest` (request.go 327-335): nil for GET,
the payload bytes otherwise. -/
def dispatchBody (c : RequestCore) (verb : String) (p : Option BodySrc) : Option String :=
  if strToUpper verb = "GET" then none else some (payloadString c p)

/-- Whether an event is the network exchange. -/
def isNetCall : Event → Bool
  | Event.netCall _ => true
  | _ => false

/-- A concrete platform environment in which request construction always
succeeds and every exchange returns response handle `7`. -/
def envOk : Env :=
  { newRequestOk := fun _ _ => true, newRequestErr := { msg := "new request failed" },
    hostOf := fun _ => "example.com", doReq := fun _ _ => Except.ok { id := 7 } }

/-- A concrete environment in which construction succeeds but every exchange
fails, as when DNS resolution or the connection attempt fails. -/
def envFail : Env :=
  { newRequestOk := fun _ _ => true, newRequestErr := { msg := "new request failed" },
    hostOf := fun _ => "example.com",
    doReq := fun _ _ => Except.error { msg := "dial tcp: connection refused" } }

/-- A concrete environment in which request construction always fails, as for
a malformed URL. -/
def envBadUrl : Env :=
  { newRequestOk := fun _ _ => false, newRequestErr := { msg := "parse error" },
    hostOf := fun _ => "", doReq := fun _ _ => Except.ok { id := 7 } }

/-- A filesystem oracle holding two one-byte files. -/
def fsTwo : String → Option String :=
  fun p => if p = "p1" then some "x" else if p = "p2" then some "y" else none

/-- A before-request hook that changes nothing and reports no error. -/
def beforeHookSilent : BeforeHook :=
  { tag := 0, run := fun c => (c, none) }

/-- A before-request hook with the same (identity) builder mutation that
returns an error. -/
def beforeHookFailing : BeforeHook :=
  { tag := 0, run := fun c => (c, some { msg := "hook failed" }) }

/-- A fresh builder with the silent hook registered. -/
def reqHookSilent : Request :=
  { core := {}, beforeRequestHooks := [beforeHookSilent] }

/-- A fresh builder with the failing hook registered. -/
def reqHookFailing : Request :=
  { core := {}, beforeRequestHooks := [beforeHookFailing] }

/-- A fresh builder with two error hooks registered. -/
def reqTwoErrorHooks : Request :=
  { core := {}, errorHooks := [{ tag := 0 }, { tag := 1 }] }

/-- An after-response hook that clears the wrapper it is handed. -/
def afterHookClearing : AfterHook :=
  { tag := 0, run := fun _ => ({ resp := none }, none) }

/-- A fresh builder with the clearing after-response hook registered. -/
def reqAfterClearing : Request :=
  { core := {}, afterResponseHooks := [afterHookClearing] }

/-! ### Supporting lemmas -/

theorem headerGet_headerSet_self (h : List (String × String)) (k v : String) :
    headerGet (headerSet h k v) k = some v := by
  induction h with
  | nil => simp [headerSet, headerGet]
  | cons p rest ih =>
    by_cases hp : p.1 = k
    · simp [headerSet, hp, headerGet]
    · simp [headerSet, hp, headerGet, ih]

theorem headerGet_headerSet_ne (h : List (String × String)) (k k2 v : String) (hne : k2 ≠ k) :
    headerGet (headerSet h k2 v) k = headerGet h k := by
  induction h with
  | nil => simp [headerSet, headerGet, hne]
  | cons p rest ih =>
    by_cases hp : p.1 = k2
    · simp [headerSet, hp, headerGet, hne, hp ▸ hne]
    · simp [headerSet, hp, headerGet, ih]

theorem headerGet_foldl_not_mem (H : List (String × String)) (h0 : List (String × String))
    (k : String) (hk : k ∉ H.map Prod.fst) :
    headerGet (H.foldl (fun h p => headerSet h p.1 p.2) h0) k = headerGet h0 k := by
  induction H generalizing h0 with
  | nil => rfl
  | cons q rest ih =>
    simp only [List.map_cons, List.mem_cons, not_or] at hk
    rw [List.foldl_cons, ih _ hk.2, headerGet_headerSet_ne _ _ _ _ (Ne.symm hk.1)]

theorem headerGet_foldl_mem (H : List (String × String)) (h0 : List (String × String))
    (k v : String) (hnd : (H.map Prod.fst).Nodup) (hmem : (k, v) ∈ H) :
    headerGet (H.foldl (fun h p => headerSet h p.1 p.2) h0) k = some v := by
  induction H generalizing h0 with
  | nil => cases hmem
  | cons q rest ih =>
    rw [List.map_cons, List.nodup_cons] at hnd
    rcases List.mem_cons.mp hmem with heq | hmem2
    · subst heq
      rw [List.foldl_cons, headerGet_foldl_not_mem rest _ _ hnd.1, headerGet_headerSet_self]
    · rw [List.foldl_cons]; exact ih _ hnd.2 hmem2

theorem headerGet_of_mem_nodup (H : List (String × String)) (k v : String)
    (hnd : (H.map Prod.fst).Nodup) (hmem : (k, v) ∈ H) :
    headerGet H k = some v := by
  induction H with
  | nil => cases hmem
  | cons q rest ih =>
    rw [List.map_cons, List.nodup_cons] at hnd
    rcases List.mem_cons.mp hmem with heq | hmem2
    · subst heq; simp [headerGet]
    · have hne : q.1 ≠ k := by
        intro hqk
        exact hnd.1 (hqk ▸ List.mem_map_of_mem Prod.fst hmem2)
      simp [headerGet, hne, ih hnd.2 hmem2]

theorem applyHeaderSteps_method (c : RequestCore) (r : HttpRequest) :
    (applyHeaderSteps c r).method = r.method := by
  simp only [applyHeaderSteps]
  by_cases hb : (c.basicUser ≠ "" ∧ c.basicPasswd ≠ "") <;>
    cases hh : headerGet (c.headers.getD []) "Host" <;> simp [hb, hh]

theorem applyHeaderSteps_url (c : RequestCore) (r : HttpRequest) :
    (applyHeaderSteps c r).url = r.url := by
  simp only [applyHeaderSteps]
  by_cases hb : (c.basicUser ≠ "" ∧ c.basicPasswd ≠ "") <;>
    cases hh : headerGet (c.headers.getD []) "Host" <;> simp [hb, hh]

theorem applyHeaderSteps_body (c : RequestCore) (r : HttpRequest) :
    (applyHeaderSteps c r).body = r.body := by
  simp only [applyHeaderSteps]
  by_cases hb : (c.basicUser ≠ "" ∧ c.basicPasswd ≠ "") <;>
    cases hh : headerGet (c.headers.getD []) "Host" <;> simp [hb, hh]

theorem applyHeaderSteps_ctx (c : RequestCore) (r : HttpRequest) :
    (applyHeaderSteps c r).ctx = r.ctx := by
  simp only [applyHeaderSteps]
  by_cases hb : (c.basicUser ≠ "" ∧ c.basicPasswd ≠ "") <;>
    cases hh : headerGet (c.headers.getD []) "Host" <;> simp [hb, hh]

theorem applyHeaderSteps_header (c : RequestCore) (r : HttpRequest) :
    (applyHeaderSteps c r).header =
      (c.headers.getD []).foldl (fun h p => headerSet h p.1 p.2)
        (if c.basicUser ≠ "" ∧ c.basicPasswd ≠ "" then
          headerSet (headerSet r.header "Content-Type" c.contentType) "Authorization"
            ("Basic " ++ basicAuth c.basicUser c.basicPasswd)
        else headerSet r.header "Content-Type" c.contentType) := by
  simp only [applyHeaderSteps]
  by_cases hb : (c.basicUser ≠ "" ∧ c.basicPasswd ≠ "") <;>
    cases hh : headerGet (c.headers.getD []) "Host" <;> simp [hb, hh]

theorem applyHeaderSteps_host (c : RequestCore) (r : HttpRequest) :
    (applyHeaderSteps c r).host =
      match headerGet (c.headers.getD []) "Host" with
      | some v => v
      | none => r.host := by
  simp only [applyHeaderSteps]
  by_cases hb : (c.basicUser ≠ "" ∧ c.basicPasswd ≠ "") <;>
    cases hh : headerGet (c.headers.getD []) "Host" <;> simp [hb, hh]

theorem dispatchRequest_eq (env : Env) (c : RequestCore) (verb url : String) (p : Option BodySrc) :
    dispatchRequest env c verb url p =
      if env.newRequestOk (strToUpper verb) (dispatchUrl c url) then
        Except.ok (applyHeaderSteps c
          { method := strToUpper verb, url := dispatchUrl c url, body := dispatchBody c verb p,
            header := [], host := env.hostOf (dispatchUrl c url), ctx := none })
      else Except.error env.newRequestErr := by
  simp only [dispatchRequest, newRequest, dispatchUrl, dispatchBody]
  by_cases hg : strToUpper verb = "GET"
  case pos =>
    rw [hg]
    cases hok : env.newRequestOk "GET" (if c.queryVals = "" then url else url ++ "?" ++ c.queryVals) <;>
      simp [hok]
  case neg =>
    simp only [if_neg hg]
    cases hok : env.newRequestOk (strToUpper verb) (if c.queryVals = "" then url else url ++ "?" ++ c.queryVals) <;>
      simp [hok]

theorem netCall_not_mem_beforeEvents (hs : List BeforeHook) (r : HttpRequest) :
    Event.netCall r ∉ beforeEvents hs := by
  simp [beforeEvents]

theorem netCall_not_mem_errorEvents (req : Request) (e : GoError) (r : HttpRequest) :
    Event.netCall r ∉ req.ExecuteOnErrorHooks e := by
  simp [Request.ExecuteOnErrorHooks]

theorem netCall_not_mem_runAfter (hs : List AfterHook) (resp : Response) (r : HttpRequest) :
    Event.netCall r ∉ runAfter hs resp := by
  induction hs generalizing resp with
  | nil => simp [runAfter]
  | cons h rest ih => simp [runAfter, ih]

theorem beforeHook_not_mem_errorEvents (req : Request) (e : GoError) (t : Nat) :
    Event.beforeHook t ∉ req.ExecuteOnErrorHooks e := by
  simp [Request.ExecuteOnErrorHooks]

theorem beforeHook_not_mem_runAfter (hs : List AfterHook) (resp : Response) (t : Nat) :
    Event.beforeHook t ∉ runAfter hs resp := by
  induction hs generalizing resp with
  | nil => simp [runAfter]
  | cons h rest ih => simp [runAfter, ih]

/-- The network exchange of a dispatch is performed on exactly the request
`dispatchRequest` constructs, and only when that construction succeeds. -/
theorem netCall_mem_iff (env : Env) (req : Request) (verb url : String) (p : Option BodySrc)
    (r : HttpRequest) :
    Event.netCall r ∈ (makeRequest env req verb url p).2 ↔
      dispatchRequest env (coreAtDispatch req) verb url p = Except.ok r := by
  rcases hd : dispatchRequest env (coreAtDispatch req) verb url p with e | r0
  · simp [makeRequest, hd, beforeEvents, Request.ExecuteOnErrorHooks]
  · rcases hdo : env.doReq (clientAtDispatch req) r0 with e | resp
    · simp [makeRequest, hd, hdo, beforeEvents, Request.ExecuteOnErrorHooks, eq_comm]
    · simp [makeRequest, hd, hdo, beforeEvents, Request.ExecuteAfterResponseHooks,
        netCall_not_mem_runAfter, eq_comm]

/-- The body of the request a dispatch actually sends: nil for GET, the
resolved payload bytes otherwise. -/
theorem netCall_body (env : Env) (req : Request) (verb url : String) (p : Option BodySrc)
    (r : HttpRequest) (h : Event.netCall r ∈ (makeRequest env req verb url p).2) :
    r.body = dispatchBody (coreAtDispatch req) verb p := by
  rw [netCall_mem_iff, dispatchRequest_eq] at h
  split at h
  · cases h with
    | refl => rw [applyHeaderSteps_body]
  · cases h

theorem netCall_url (env : Env) (req : Request) (verb url : String) (p : Option BodySrc)
    (r : HttpRequest) (h : Event.netCall r ∈ (makeRequest env req verb url p).2) :
    r.url = dispatchUrl (coreAtDispatch req) url := by
  rw [netCall_mem_iff, dispatchRequest_eq] at h
  split at h
  · cases h with
    | refl => rw [applyHeaderSteps_url]
  · cases h

theorem netCall_ctx (env : Env) (req : Request) (verb url : String) (p : Option BodySrc)
    (r : HttpRequest) (h : Event.netCall r ∈ (makeRequest env req verb url p).2) :
    r.ctx = none := by
  rw [netCall_mem_iff, dispatchRequest_eq] at h
  split at h
  · cases h with
    | refl => rw [applyHeaderSteps_ctx]
  · cases h

/-- When no before-request hook is registered, the configuration visible at
dispatch time differs from the builder's only in the cached client and the
closed multipart buffer. -/
theorem coreAtDispatch_noHooks (req : Request) (h : req.beforeRequestHooks = []) :
    (coreAtDispatch req).queryVals = req.core.queryVals ∧
    (coreAtDispatch req).contentType = req.core.contentType ∧
    (coreAtDispatch req).headers = req.core.headers ∧
    (coreAtDispatch req).basicUser = req.core.basicUser ∧
    (coreAtDispatch req).basicPasswd = req.core.basicPasswd ∧
    (coreAtDispatch req).formVals = req.core.formVals ∧
    (coreAtDispatch req).ctx = req.core.ctx := by
  unfold coreAtDispatch createClient closeWriter
  rw [h]
  simp only [applyBefore]
  rcases req.core.client with _ | cl <;> rcases hw : req.core.writer with _ | w <;> simp [hw]

theorem insertByKey_ne_nil {α : Type} (p : String × α) (l : List (String × α)) :
    insertByKey p l ≠ [] := by
  cases l with
  | nil => simp [insertByKey]
  | cons q rest =>
    simp only [insertByKey]
    split <;> simp

theorem sortByKey_ne_nil {α : Type} (l : List (String × α)) (h : l ≠ []) :
    sortByKey l ≠ [] := by
  cases l with
  | nil => exact absurd rfl h
  | cons p rest => exact insertByKey_ne_nil p (sortByKey rest)

theorem joinAmp_length (x : String) (l : List String) :
    x.length ≤ (joinAmp (x :: l)).length := by
  cases l with
  | nil => simp [joinAmp]
  | cons y rest =>
    simp only [joinAmp, String.length_append]
    omega

/-- A non-empty map never encodes to the empty query string (every pair
contributes at least its `=`). -/
theorem urlValuesEncode_ne_empty (Q : List (String × String)) (h : Q ≠ []) :
    urlValuesEncode Q ≠ "" := by
  unfold urlValuesEncode
  rcases hs : sortByKey Q with _ | ⟨q, rest⟩
  · exact absurd hs (sortByKey_ne_nil Q h)
  · intro hempty
    have hx := joinAmp_length (queryEscape q.1 ++ "=" ++ queryEscape q.2)
      (rest.map fun p => queryEscape p.1 ++ "=" ++ queryEscape p.2)
    rw [List.map_cons] at hempty
    rw [hempty] at hx
    simp only [String.length_append] at hx
    have he : "=".length = 1 := rfl
    have h0 : ("" : String).length = 0 := rfl
    omega

theorem writeField_preserves (c : RequestCore) (k v : String) :
    (writeField c k v).formVals = c.formVals ∧
    (writeField c k v).contentType = c.contentType ∧
    (writeField c k v).headers = c.headers ∧
    (writeField c k v).basicUser = c.basicUser ∧
    (writeField c k v).basicPasswd = c.basicPasswd ∧
    (writeField c k v).queryVals = c.queryVals ∧
    (writeField c k v).client = c.client := by
  unfold writeField
  cases c.writer <;> simp

theorem foldWriteField_preserves (fd : List (String × String)) (c : RequestCore) :
    (fd.foldl (fun c p => writeField c p.1 p.2) c).formVals = c.formVals ∧
    (fd.foldl (fun c p => writeField c p.1 p.2) c).contentType = c.contentType ∧
    (fd.foldl (fun c p => writeField c p.1 p.2) c).headers = c.headers ∧
    (fd.foldl (fun c p => writeField c p.1 p.2) c).basicUser = c.basicUser ∧
    (fd.foldl (fun c p => writeField c p.1 p.2) c).basicPasswd = c.basicPasswd ∧
    (fd.foldl (fun c p => writeField c p.1 p.2) c).queryVals = c.queryVals ∧
    (fd.foldl (fun c p => writeField c p.1 p.2) c).client = c.client := by
  induction fd generalizing c with
  | nil => simp
  | cons q rest ih =>
    rw [List.foldl_cons]
    have h1 := writeField_preserves c q.1 q.2
    have h2 := ih (writeField c q.1 q.2)
    exact ⟨h2.1.trans h1.1, (h2.2.1).trans h1.2.1, (h2.2.2.1).trans h1.2.2.1,
      (h2.2.2.2.1).trans h1.2.2.2.1, (h2.2.2.2.2.1).trans h1.2.2.2.2.1,
      (h2.2.2.2.2.2.1).trans h1.2.2.2.2.2.1, (h2.2.2.2.2.2.2).trans h1.2.2.2.2.2.2⟩

theorem foldWriteField_buffer_le (fd : List (String × String)) (c : RequestCore) :
    c.multipartBuffer.length ≤ (fd.foldl (fun c p => writeField c p.1 p.2) c).multipartBuffer.length := by
  induction fd generalizing c with
  | nil => simp
  | cons q rest ih =>
    rw [List.foldl_cons]
    refine le_trans ?_ (ih (writeField c q.1 q.2))
    unfold writeField
    cases c.writer <;> simp [String.length_append]

/-- A field part is at least its two boundary dashes long. -/
theorem fieldChunk_length (w : Writer) (k v : String) : 2 ≤ (fieldChunk w k v).length := by
  have h2 : "--".length = 2 := rfl
  simp only [fieldChunk, String.length_append]
  omega

/-- Once a writer exists, writing the fields of a non-empty map leaves a
non-empty multipart buffer. -/
theorem foldWriteField_buffer_ne (fd : List (String × String)) (c : RequestCore)
    (hw : c.writer.isSome) (hfd : fd ≠ []) :
    (fd.foldl (fun c p => writeField c p.1 p.2) c).multipartBuffer ≠ "" := by
  rcases fd with _ | ⟨q, rest⟩
  · exact absurd rfl hfd
  · rw [List.foldl_cons]
    intro hempty
    have hx := foldWriteField_buffer_le rest (writeField c q.1 q.2)
    rw [hempty] at hx
    rcases hwr : c.writer with _ | w
    · rw [hwr] at hw; cases hw
    · have hc : (writeField c q.1 q.2).multipartBuffer.length
          = c.multipartBuffer.length + (fieldChunk w q.1 q.2).length := by
        unfold writeField
        rw [hwr]
        simp [String.length_append]
      have hf := fieldChunk_length w q.1 q.2
      have h0 : ("" : String).length = 0 := rfl
      omega

/-- `applyBefore` depends only on each hook's state transformation. -/
theorem applyBefore_congr (hs1 hs2 : List BeforeHook)
    (h : hs1.map (fun h => fun c => (h.run c).1) = hs2.map (fun h => fun c => (h.run c).1)) :
    ∀ c, applyBefore hs1 c = applyBefore hs2 c := by
  induction hs1 generalizing hs2 with
  | nil =>
    cases hs2 with
    | nil => intro c; rfl
    | cons q rest => cases h
  | cons q rest ih =>
    cases hs2 with
    | nil => cases h
    | cons q2 rest2 =>
      rw [List.map_cons, List.map_cons] at h
      have hh := List.cons.injEq _ _ _ _ ▸ h
      intro c
      simp only [applyBefore]
      have hq : (fun c => (q.run c).1) = fun c => (q2.run c).1 := (List.cons.inj h).1
      rw [congrFun hq c]
      exact ih rest2 (List.cons.inj h).2 _

theorem createClient_ctx (c : RequestCore) (x : Option Ctx) :
    createClient { c with ctx := x } = ((createClient c).1, { (createClient c).2 with ctx := x }) := by
  unfold createClient
  cases hc : c.client <;> simp [hc]

theorem closeWriter_ctx (c : RequestCore) (x : Option Ctx) :
    closeWriter { c with ctx := x } = { closeWriter c with ctx := x } := by
  unfold closeWriter
  cases hw : c.writer <;> simp [hw]

theorem dispatchRequest_ctxField (env : Env) (c : RequestCore) (x : Option Ctx)
    (verb url : String) (p : Option BodySrc) :
    dispatchRequest env { c with ctx := x } verb url p = dispatchRequest env c verb url p := rfl

/-! ### The claims -/

/-- C1: the claim says a context attached via `SetContext` is honored by
dispatch, the constructed request carrying it so that cancellation aborts the
exchange.  The code never reads the stored context: the request is built with
plain `http.NewRequest` (request.go 332/334), so it always carries the
background context (first conjunct), and — when no before-request hook
inspects the builder — the whole dispatch result and trace are unchanged by
`SetContext` (second conjunct).  This contradicts `SetContext`'s own
documentation (request.go 301-303). -/
theorem c1_context_never_attached (env : Env) (req : Request) (verb url : String)
    (p : Option BodySrc) :
    (∀ r : HttpRequest, Event.netCall r ∈ (makeRequest env req verb url p).2 → r.ctx = none) ∧
    (req.beforeRequestHooks = [] → ∀ cx : Ctx,
      makeRequest env (req.SetContext cx) verb url p = makeRequest env req verb url p) := by
  constructor
  · intro r hr
    exact netCall_ctx env req verb url p r hr
  · intro hh cx
    have hcore : (req.SetContext cx).core = { req.core with ctx := some cx } := rfl
    have h1 : coreAtDispatch (req.SetContext cx) = { coreAtDispatch req with ctx := some cx } := by
      unfold coreAtDispatch
      show closeWriter (createClient (applyBefore (req.SetContext cx).beforeRequestHooks
        (req.SetContext cx).core)).2 = _
      have hbh : (req.SetContext cx).beforeRequestHooks = req.beforeRequestHooks := rfl
      rw [hbh, hh, hcore]
      simp only [applyBefore]
      rw [createClient_ctx, closeWriter_ctx]
    have h2 : clientAtDispatch (req.SetContext cx) = clientAtDispatch req := by
      unfold clientAtDispatch
      have hbh : (req.SetContext cx).beforeRequestHooks = req.beforeRequestHooks := rfl
      rw [hbh, hh, hcore]
      simp only [applyBefore]
      rw [createClient_ctx]
    have h3 : dispatchRequest env (coreAtDispatch (req.SetContext cx)) verb url p
        = dispatchRequest env (coreAtDispatch req) verb url p := by
      rw [h1]
      exact dispatchRequest_ctxField env (coreAtDispatch req) (some cx) verb url p
    show makeRequest env (req.SetContext cx) verb url p = makeRequest env req verb url p
    simp only [makeRequest]
    rw [h2, h3]
    rfl

/-- Witness for C1: with the always-succeeding environment, the request a
dispatch with an attached context actually sends carries no context, and the
dispatch behaves exactly as if no context had been set. -/
theorem c1_witness :
    ({ method := "GET", url := "u", body := none, header := [("Content-Type", "")],
       host := "example.com", ctx := none } : HttpRequest).ctx = none ∧
    makeRequest envOk ((NewRequest []).SetContext { id := 5 }) "GET" "u" none
      = makeRequest envOk (NewRequest []) "GET" "u" none :=
  ⟨(c1_context_never_attached envOk ((NewRequest []).SetContext { id := 5 }) "GET" "u" none).1
      _ (by decide),
   (c1_context_never_attached envOk (NewRequest []) "GET" "u" none).2 rfl { id := 5 }⟩

theorem netCall_body_get (env : Env) (req : Request) (verb url : String) (p : Option BodySrc)
    (r : HttpRequest) (hv : strToUpper verb = "GET")
    (h : Event.netCall r ∈ (makeRequest env req verb url p).2) :
    r.body = none := by
  rw [netCall_body env req verb url p r h]
  unfold dispatchBody
  rw [if_pos hv]

theorem netCall_body_nonGet (env : Env) (req : Request) (verb url : String) (p : Option BodySrc)
    (r : HttpRequest) (hv : strToUpper verb ≠ "GET")
    (h : Event.netCall r ∈ (makeRequest env req verb url p).2) :
    r.body = some (payloadString (coreAtDispatch req) p) := by
  rw [netCall_body env req verb url p r h]
  unfold dispatchBody
  rw [if_neg hv]

/-- C2: the request `Get` sends carries a nil body whatever payload was
configured (request.go 331-332), while every other verb method sends the
configured payload bytes (request.go 334), an empty buffer standing in when
no payload was ever set (request.go 327-329, last conjunct). -/
theorem c2_get_drops_body (env : Env) (req : Request) (url : String) :
    (∀ r, Event.netCall r ∈ (req.Get env url).2 → r.body = none) ∧
    (∀ r, Event.netCall r ∈ (req.Post env url).2 →
      r.body = some (payloadString (coreAtDispatch req) req.core.formVals)) ∧
    (∀ r, Event.netCall r ∈ (req.Put env url).2 →
      r.body = some (payloadString (coreAtDispatch req) req.core.formVals)) ∧
    (∀ r, Event.netCall r ∈ (req.Patch env url).2 →
      r.body = some (payloadString (coreAtDispatch req) req.core.formVals)) ∧
    (∀ r, Event.netCall r ∈ (req.Delete env url).2 →
      r.body = some (payloadString (coreAtDispatch req) req.core.formVals)) ∧
    (∀ r, Event.netCall r ∈ (req.Head env url).2 →
      r.body = some (payloadString (coreAtDispatch req) req.core.formVals)) ∧
    (∀ r, Event.netCall r ∈ (req.Options env url).2 →
      r.body = some (payloadString (coreAtDispatch req) req.core.formVals)) ∧
    payloadString (coreAtDispatch req) none = "" :=
  ⟨fun r h => netCall_body_get env req "GET" url req.core.formVals r (by decide) h,
   fun r h => netCall_body_nonGet env req "POST" url req.core.formVals r (by decide) h,
   fun r h => netCall_body_nonGet env req "PUT" url req.core.formVals r (by decide) h,
   fun r h => netCall_body_nonGet env req "PATCH" url req.core.formVals r (by decide) h,
   fun r h => netCall_body_nonGet env req "DELETE" url req.core.formVals r (by decide) h,
   fun r h => netCall_body_nonGet env req "HEAD" url req.core.formVals r (by decide) h,
   fun r h => netCall_body_nonGet env req "OPTIONS" url req.core.formVals r (by decide) h,
   rfl⟩

/-- Witness for C2: with a `Text "hello"` payload configured, the GET request
actually sent has a nil body while the POST request carries `hello`. -/
theorem c2_witness :
    ({ method := "GET", url := "u", body := none,
       header := [("Content-Type", "text/plain")], host := "example.com",
       ctx := none } : HttpRequest).body = none ∧
    ({ method := "POST", url := "u", body := some "hello",
       header := [("Content-Type", "text/plain")], host := "example.com",
       ctx := none } : HttpRequest).body = some "hello" :=
  ⟨(c2_get_drops_body envOk ((NewRequest []).Text "hello") "u").1 _ (by decide),
   ((c2_get_drops_body envOk ((NewRequest []).Text "hello") "u").2.1 _ (by decide)).trans
     (by decide)⟩

/-- C3: every pair of a header map installed with `Headers` ends up verbatim
on the outgoing request, overriding whatever the content-type or basic-auth
steps put there first (the header loop of request.go 349-351 runs last), and
a `Host` entry additionally overrides the request host (request.go 353-355). -/
theorem c3_headers_take_precedence (env : Env) (req : Request) (H : List (String × String))
    (verb url : String) (p : Option BodySrc) (k v : String)
    (hh : req.beforeRequestHooks = [])
    (hnd : (H.map Prod.fst).Nodup) (hkv : (k, v) ∈ H) :
    ∀ r, Event.netCall r ∈ (makeRequest env (req.Headers H) verb url p).2 →
      headerGet r.header k = some v ∧ (k = "Host" → r.host = v) := by
  intro r hr
  rw [netCall_mem_iff, dispatchRequest_eq] at hr
  have hH : (coreAtDispatch (req.Headers H)).headers = some H := by
    have hpr := (coreAtDispatch_noHooks (req.Headers H) hh).2.2.1
    rw [hpr]
    rfl
  split at hr
  case isTrue =>
    rw [Except.ok.injEq] at hr
    subst hr
    constructor
    · rw [applyHeaderSteps_header, hH]
      exact headerGet_foldl_mem H _ k v hnd hkv
    · intro hk
      subst hk
      rw [applyHeaderSteps_host, hH]
      simp only [Option.getD_some]
      rw [headerGet_of_mem_nodup H "Host" v hnd hkv]
  case isFalse => cases hr

/-- Witness for C3: a header map overriding `Content-Type` and `Host` wins on
the dispatched request. -/
theorem c3_witness :
    headerGet ({ method := "POST", url := "u", body := some "b",
                 header := [("Content-Type", "text/html"), ("X-Token", "t"), ("Host", "h2")],
                 host := "h2", ctx := none } : HttpRequest).header "Content-Type"
        = some "text/html" ∧
    ("Content-Type" = "Host" →
      ({ method := "POST", url := "u", body := some "b",
         header := [("Content-Type", "text/html"), ("X-Token", "t"), ("Host", "h2")],
         host := "h2", ctx := none } : HttpRequest).host = "text/html") :=
  c3_headers_take_precedence envOk ((NewRequest []).Text "b")
    [("Content-Type", "text/html"), ("X-Token", "t"), ("Host", "h2")]
    "POST" "u" (some (BodySrc.buf "b")) "Content-Type" "text/html"
    rfl (by decide) (by decide) _ (by decide)

/-- C4: every before-request hook runs, in registration order, before the
network call (first conjunct: the trace starts with the hook events and no
hook event appears later), and the errors the hooks return are discarded by
`ExecuteBeforeRequestHooks` (request.go 276 drops the return value), so two
builders whose before-request hooks differ only in the errors they return
dispatch identically (second conjunct). -/
theorem c4_before_hooks_order_errors_ignored (env : Env) (req1 req2 : Request)
    (verb url : String) (p : Option BodySrc)
    (hcore : req1.core = req2.core)
    (herr : req1.errorHooks = req2.errorHooks)
    (haft : req1.afterResponseHooks = req2.afterResponseHooks)
    (hbef : req1.beforeRequestHooks.map (fun h => (h.tag, fun c => (h.run c).1))
      = req2.beforeRequestHooks.map (fun h => (h.tag, fun c => (h.run c).1))) :
    (∃ rest, (makeRequest env req1 verb url p).2 = beforeEvents req1.beforeRequestHooks ++ rest ∧
      ∀ t, Event.beforeHook t ∉ rest) ∧
    makeRequest env req1 verb url p = makeRequest env req2 verb url p := by
  constructor
  · rcases hd : dispatchRequest env (coreAtDispatch req1) verb url p with e | r0
    · refine ⟨req1.ExecuteOnErrorHooks e, ?_, ?_⟩
      · simp [makeRequest, hd]
      · intro t
        exact beforeHook_not_mem_errorEvents req1 e t
    · rcases hdo : env.doReq (clientAtDispatch req1) r0 with e | resp
      · refine ⟨[Event.netCall r0] ++ req1.ExecuteOnErrorHooks e, ?_, ?_⟩
        · simp [makeRequest, hd, hdo]
        · intro t
          simp [Request.ExecuteOnErrorHooks]
      · refine ⟨[Event.netCall r0] ++ req1.ExecuteAfterResponseHooks { resp := some resp }, ?_, ?_⟩
        · simp [makeRequest, hd, hdo]
        · intro t
          simp only [List.mem_append, List.mem_singleton]
          rintro (h1 | h2)
          · cases h1
          · exact beforeHook_not_mem_runAfter req1.afterResponseHooks { resp := some resp } t h2
  · have htags : req1.beforeRequestHooks.map (fun h => h.tag)
        = req2.beforeRequestHooks.map (fun h => h.tag) := by
      have h := congrArg (List.map Prod.fst) hbef
      simpa [List.map_map, Function.comp] using h
    have hev : beforeEvents req1.beforeRequestHooks = beforeEvents req2.beforeRequestHooks := by
      unfold beforeEvents
      have h1 : req1.beforeRequestHooks.map (fun h => Event.beforeHook h.tag)
          = (req1.beforeRequestHooks.map (fun h => h.tag)).map Event.beforeHook := by
        rw [List.map_map]; rfl
      have h2 : req2.beforeRequestHooks.map (fun h => Event.beforeHook h.tag)
          = (req2.beforeRequestHooks.map (fun h => h.tag)).map Event.beforeHook := by
        rw [List.map_map]; rfl
      rw [h1, h2, htags]
    have happ : ∀ c, applyBefore req1.beforeRequestHooks c = applyBefore req2.beforeRequestHooks c := by
      apply applyBefore_congr
      have h := congrArg (List.map Prod.snd) hbef
      simpa [List.map_map, Function.comp] using h
    have hcad : coreAtDispatch req1 = coreAtDispatch req2 := by
      unfold coreAtDispatch
      rw [happ req1.core, hcore]
    have hcli : clientAtDispatch req1 = clientAtDispatch req2 := by
      unfold clientAtDispatch
      rw [happ req1.core, hcore]
    simp only [makeRequest, Request.ExecuteOnErrorHooks, Request.ExecuteAfterResponseHooks]
    simp only [hcad, hcli, hev, herr, haft]

/-- Witness for C4: one silent and one error-returning hook with the same
builder mutation give byte-for-byte identical dispatches, whose trace starts
with the hook event. -/
theorem c4_witness :
    ((∃ rest, (makeRequest envOk reqHookSilent "GET" "u" none).2
        = beforeEvents reqHookSilent.beforeRequestHooks ++ rest ∧
        ∀ t, Event.beforeHook t ∉ rest) ∧
      makeRequest envOk reqHookSilent "GET" "u" none
        = makeRequest envOk reqHookFailing "GET" "u" none) :=
  c4_before_hooks_order_errors_ignored envOk reqHookSilent reqHookFailing "GET" "u" none
    rfl rfl rfl rfl

theorem isNetCall_beforeHook (t : Nat) : isNetCall (Event.beforeHook t) = false := rfl

theorem isNetCall_errorHook (t : Nat) (e : GoError) : isNetCall (Event.errorHook t e) = false := rfl

theorem isNetCall_afterHook (t : Nat) (r : Response) : isNetCall (Event.afterHook t r) = false := rfl

theorem isNetCall_netCall (r : HttpRequest) : isNetCall (Event.netCall r) = true := rfl

/-- C5: when request construction fails (first conjunct) or the exchange
fails (second conjunct), the verb call returns the error — `(nil, err)` in
the source, here `Except.error` with no response — after running every
registered error hook exactly once, in registration order (the trace ends
with exactly the `errorHook` events of the registered list); no second
exchange is attempted (the trace holds zero resp. one `netCall`). -/
theorem c5_failure_runs_error_hooks (env : Env) (req : Request) (verb url : String)
    (p : Option BodySrc) (e : GoError) :
    (dispatchRequest env (coreAtDispatch req) verb url p = Except.error e →
      makeRequest env req verb url p
        = (Except.error e, beforeEvents req.beforeRequestHooks ++ req.ExecuteOnErrorHooks e) ∧
      ((makeRequest env req verb url p).2.countP isNetCall) = 0) ∧
    (∀ r, dispatchRequest env (coreAtDispatch req) verb url p = Except.ok r →
      env.doReq (clientAtDispatch req) r = Except.error e →
      makeRequest env req verb url p
        = (Except.error e, beforeEvents req.beforeRequestHooks ++ [Event.netCall r]
            ++ req.ExecuteOnErrorHooks e) ∧
      ((makeRequest env req verb url p).2.countP isNetCall) = 1) := by
  constructor
  · intro hd
    have ht : makeRequest env req verb url p
        = (Except.error e, beforeEvents req.beforeRequestHooks ++ req.ExecuteOnErrorHooks e) := by
      simp [makeRequest, hd]
    refine ⟨ht, ?_⟩
    rw [ht]
    simp [beforeEvents, Request.ExecuteOnErrorHooks, List.countP_append, List.countP_map,
      Function.comp, isNetCall_beforeHook, isNetCall_errorHook, List.countP_false]
  · intro r hd hdo
    have ht : makeRequest env req verb url p
        = (Except.error e, beforeEvents req.beforeRequestHooks ++ [Event.netCall r]
            ++ req.ExecuteOnErrorHooks e) := by
      simp [makeRequest, hd, hdo]
    refine ⟨ht, ?_⟩
    rw [ht]
    simp [beforeEvents, Request.ExecuteOnErrorHooks, List.countP_append, List.countP_map,
      Function.comp, Function.comp_def, isNetCall_beforeHook, isNetCall_errorHook,
      isNetCall_netCall, List.countP_false, List.countP_cons]

/-- Witness for C5: with two error hooks registered, a failing construction
runs both hooks, in order, with no exchange; a refused connection runs both
hooks after the single exchange. -/
theorem c5_witness :
    (makeRequest envBadUrl reqTwoErrorHooks "GET" "u" none
      = (Except.error { msg := "parse error" },
         beforeEvents reqTwoErrorHooks.beforeRequestHooks
           ++ reqTwoErrorHooks.ExecuteOnErrorHooks { msg := "parse error" }) ∧
      ((makeRequest envBadUrl reqTwoErrorHooks "GET" "u" none).2.countP isNetCall) = 0) ∧
    (makeRequest envFail reqTwoErrorHooks "GET" "u" none
      = (Except.error { msg := "dial tcp: connection refused" },
         beforeEvents reqTwoErrorHooks.beforeRequestHooks
           ++ [Event.netCall { method := "GET", url := "u", body := none,
                               header := [("Content-Type", "")], host := "example.com",
                               ctx := none }]
           ++ reqTwoErrorHooks.ExecuteOnErrorHooks { msg := "dial tcp: connection refused" }) ∧
      ((makeRequest envFail reqTwoErrorHooks "GET" "u" none).2.countP isNetCall) = 1) :=
  ⟨(c5_failure_runs_error_hooks envBadUrl reqTwoErrorHooks "GET" "u" none
      { msg := "parse error" }).1 rfl,
   (c5_failure_runs_error_hooks envFail reqTwoErrorHooks "GET" "u" none
      { msg := "dial tcp: connection refused" }).2
      { method := "GET", url := "u", body := none, header := [("Content-Type", "")],
        host := "example.com", ctx := none } rfl rfl⟩

/-- C6: on a successful exchange the after-response hooks receive the one
value-copy of the wrapper (threaded through `runAfter`, whose final state is
discarded), while the caller receives the original wrapper holding the
platform response; in particular the returned value is the same for every
list of after-response hooks, so hook mutations are not observable by the
caller (second conjunct). -/
theorem c6_after_hooks_see_copy (env : Env) (req : Request) (verb url : String)
    (p : Option BodySrc) (respObj : HttpResp) (r : HttpRequest)
    (hdo : env.doReq = fun _ _ => Except.ok respObj)
    (hok : dispatchRequest env (coreAtDispatch req) verb url p = Except.ok r) :
    makeRequest env req verb url p
      = (Except.ok { resp := some respObj },
         beforeEvents req.beforeRequestHooks ++ [Event.netCall r]
           ++ runAfter req.afterResponseHooks { resp := some respObj }) ∧
    (∀ hooks2 : List AfterHook,
      (makeRequest env { req with afterResponseHooks := hooks2 } verb url p).1
        = Except.ok { resp := some respObj }) := by
  constructor
  · simp [makeRequest, hok, hdo, Request.ExecuteAfterResponseHooks]
  · intro hooks2
    have hok2 : dispatchRequest env
        (coreAtDispatch { req with afterResponseHooks := hooks2 }) verb url p
        = Except.ok r := hok
    simp [makeRequest, hok2, hdo]

/-- Witness for C6: a hook that clears the wrapper it receives does not
change what the caller gets back. -/
theorem c6_witness :
    makeRequest envOk reqAfterClearing "POST" "u" none
      = (Except.ok { resp := some { id := 7 } },
         beforeEvents reqAfterClearing.beforeRequestHooks
           ++ [Event.netCall { method := "POST", url := "u", body := some "",
                               header := [("Content-Type", "")], host := "example.com",
                               ctx := none }]
           ++ runAfter reqAfterClearing.afterResponseHooks { resp := some { id := 7 } }) ∧
    (∀ hooks2 : List AfterHook,
      (makeRequest envOk { reqAfterClearing with afterResponseHooks := hooks2 } "POST" "u" none).1
        = Except.ok { resp := some { id := 7 } }) :=
  c6_after_hooks_see_copy envOk reqAfterClearing "POST" "u" none { id := 7 }
    { method := "POST", url := "u", body := some "", header := [("Content-Type", "")],
      host := "example.com", ctx := none } rfl rfl

/-- C7: a non-empty map passed to `Query` makes every dispatch target the
given URL with `?` and the standard form encoding of the map (keys sorted,
percent-escaped, `&`-joined) appended — with no merging into any query
component the URL already has (the URL is arbitrary here). -/
theorem c7_query_appended (env : Env) (req : Request) (Q : List (String × String))
    (verb url : String) (p : Option BodySrc)
    (hh : req.beforeRequestHooks = []) (hQ : Q ≠ []) :
    ∀ r, Event.netCall r ∈ (makeRequest env (req.Query Q) verb url p).2 →
      r.url = url ++ "?" ++ urlValuesEncode Q := by
  intro r hr
  have hqv : (coreAtDispatch (req.Query Q)).queryVals = urlValuesEncode Q := by
    have hpr := (coreAtDispatch_noHooks (req.Query Q) hh).1
    rw [hpr]
    rfl
  have hne := urlValuesEncode_ne_empty Q hQ
  have hu := netCall_url env (req.Query Q) verb url p r hr
  rw [hu]
  unfold dispatchUrl
  rw [hqv, if_neg hne]

/-- Witness for C7: `Query` of the two-entry map, dispatched against a URL
that already carries a query component, appends `?a=1&b=2` verbatim. -/
theorem c7_witness :
    ({ method := "POST", url := "http://h/p?x=0?a=1&b=2", body := some "",
       header := [("Content-Type", "application/x-www-form-urlencoded")],
       host := "example.com", ctx := none } : HttpRequest).url
      = "http://h/p?x=0" ++ "?" ++ urlValuesEncode [("b", "2"), ("a", "1")] :=
  c7_query_appended envOk (NewRequest []) [("b", "2"), ("a", "1")] "POST" "http://h/p?x=0" none
    rfl (by decide) _ (by decide)

/-- C8: `JSON` sets the builder's content type to `application/json` and its
body buffer to the canonical (key-sorted, escaped) JSON encoding of the map
(request.go 76-86), and dispatch puts that content type on the outgoing
request (request.go 342) whenever the configured header map does not itself
override `Content-Type`. -/
theorem c8_json_content_type (env : Env) (req : Request) (M : List (String × JVal))
    (verb url : String) (p : Option BodySrc)
    (hh : req.beforeRequestHooks = [])
    (hct : "Content-Type" ∉ (req.core.headers.getD []).map Prod.fst) :
    (req.JSON M).core.contentType = "application/json" ∧
    (req.JSON M).core.formVals = some (BodySrc.buf (jsonMarshalMap M)) ∧
    ∀ r, Event.netCall r ∈ (makeRequest env (req.JSON M) verb url p).2 →
      headerGet r.header "Content-Type" = some "application/json" := by
  refine ⟨rfl, rfl, ?_⟩
  intro r hr
  rw [netCall_mem_iff, dispatchRequest_eq] at hr
  have hctc : (coreAtDispatch (req.JSON M)).contentType = "application/json" := by
    have hpr := (coreAtDispatch_noHooks (req.JSON M) hh).2.1
    rw [hpr]
    rfl
  have hhd : (coreAtDispatch (req.JSON M)).headers = req.core.headers := by
    have hpr := (coreAtDispatch_noHooks (req.JSON M) hh).2.2.1
    rw [hpr]
    rfl
  split at hr
  case isTrue =>
    rw [Except.ok.injEq] at hr
    subst hr
    rw [applyHeaderSteps_header, hhd]
    rw [headerGet_foldl_not_mem _ _ _ hct]
    by_cases hb : ((coreAtDispatch (req.JSON M)).basicUser ≠ ""
        ∧ (coreAtDispatch (req.JSON M)).basicPasswd ≠ "")
    · rw [if_pos hb, headerGet_headerSet_ne _ _ _ _ (by decide), headerGet_headerSet_self, hctc]
    · rw [if_neg hb, headerGet_headerSet_self, hctc]
  case isFalse => cases hr

/-- Witness for C8: `JSON` of the one-entry map `x = 1` sets content type and
body, and the dispatched request carries the JSON content type. -/
theorem c8_witness :
    ((NewRequest []).JSON [("x", JVal.num 1)]).core.contentType = "application/json" ∧
    ((NewRequest []).JSON [("x", JVal.num 1)]).core.formVals
      = some (BodySrc.buf (jsonMarshalMap [("x", JVal.num 1)])) ∧
    headerGet ({ method := "POST", url := "u", body := some "\x7b\"x\":1\x7d",
                 header := [("Content-Type", "application/json")], host := "example.com",
                 ctx := none } : HttpRequest).header "Content-Type"
      = some "application/json" :=
  ⟨((c8_json_content_type envOk (NewRequest []) [("x", JVal.num 1)] "POST" "u" none
        rfl (by decide))).1,
   ((c8_json_content_type envOk (NewRequest []) [("x", JVal.num 1)] "POST" "u" none
        rfl (by decide))).2.1,
   ((c8_json_content_type envOk (NewRequest []) [("x", JVal.num 1)] "POST" "u"
        (((NewRequest []).JSON [("x", JVal.num 1)]).core.formVals)
        rfl (by decide))).2.2 _ (by decide)⟩

theorem c9_helper (env : Env) (fd : List (String × String)) (verb url : String)
    (hv : strToUpper verb ≠ "GET") :
    ∀ r, Event.netCall r ∈ (makeRequest env ((NewRequest []).MultipartFormData fd) verb url
        ((NewRequest []).MultipartFormData fd).core.formVals).2 →
      r.body = some "" ∧ headerGet r.header "Content-Type" = some "" := by
  intro r hr
  have hfv : ((NewRequest []).MultipartFormData fd).core.formVals = none :=
    (foldWriteField_preserves fd _).1
  constructor
  · have hb := netCall_body_nonGet env ((NewRequest []).MultipartFormData fd) verb url
      ((NewRequest []).MultipartFormData fd).core.formVals r hv hr
    rw [hb, hfv]
    rfl
  · rw [netCall_mem_iff, dispatchRequest_eq] at hr
    have hhd : (coreAtDispatch ((NewRequest []).MultipartFormData fd)).headers = none := by
      have h1 := (coreAtDispatch_noHooks ((NewRequest []).MultipartFormData fd) rfl).2.2.1
      have h2 := (foldWriteField_preserves fd (ensureWriter (NewRequest []).core)).2.2.1
      rw [h1]
      exact h2
    have hctc : (coreAtDispatch ((NewRequest []).MultipartFormData fd)).contentType = "" := by
      have h1 := (coreAtDispatch_noHooks ((NewRequest []).MultipartFormData fd) rfl).2.1
      have h2 := (foldWriteField_preserves fd (ensureWriter (NewRequest []).core)).2.1
      rw [h1]
      exact h2
    have hbu : (coreAtDispatch ((NewRequest []).MultipartFormData fd)).basicUser = "" := by
      have h1 := (coreAtDispatch_noHooks ((NewRequest []).MultipartFormData fd) rfl).2.2.2.1
      have h2 := (foldWriteField_preserves fd (ensureWriter (NewRequest []).core)).2.2.2.1
      rw [h1]
      exact h2
    split at hr
    case isTrue =>
      rw [Except.ok.injEq] at hr
      subst hr
      rw [applyHeaderSteps_header, hhd]
      simp only [Option.getD_none, List.foldl_nil]
      rw [if_neg (fun hcontra => hcontra.1 hbu)]
      rw [headerGet_headerSet_self, hctc]
    case isFalse => cases hr

/-- C9: `MultipartFormData` alone (no upload call, no other body encoder)
writes the field parts into the internal buffer (third conjunct: the buffer is
non-empty for a non-empty map) but never assigns that buffer as the request
body nor sets the multipart content type (first two conjuncts: `formVals` and
`contentType` are untouched, request.go 182-191), so every subsequent non-GET
verb call sends an empty body with an empty `Content-Type` header and the
parts are silently dropped (remaining conjuncts). -/
theorem c9_multipart_fields_dropped (env : Env) (fd : List (String × String)) (url : String) :
    ((NewRequest []).MultipartFormData fd).core.formVals = none ∧
    ((NewRequest []).MultipartFormData fd).core.contentType = "" ∧
    (fd ≠ [] → ((NewRequest []).MultipartFormData fd).core.multipartBuffer ≠ "") ∧
    (∀ r, Event.netCall r ∈ (((NewRequest []).MultipartFormData fd).Post env url).2 →
      r.body = some "" ∧ headerGet r.header "Content-Type" = some "") ∧
    (∀ r, Event.netCall r ∈ (((NewRequest []).MultipartFormData fd).Put env url).2 →
      r.body = some "" ∧ headerGet r.header "Content-Type" = some "") ∧
    (∀ r, Event.netCall r ∈ (((NewRequest []).MultipartFormData fd).Patch env url).2 →
      r.body = some "" ∧ headerGet r.header "Content-Type" = some "") ∧
    (∀ r, Event.netCall r ∈ (((NewRequest []).MultipartFormData fd).Delete env url).2 →
      r.body = some "" ∧ headerGet r.header "Content-Type" = some "") ∧
    (∀ r, Event.netCall r ∈ (((NewRequest []).MultipartFormData fd).Head env url).2 →
      r.body = some "" ∧ headerGet r.header "Content-Type" = some "") ∧
    (∀ r, Event.netCall r ∈ (((NewRequest []).MultipartFormData fd).Options env url).2 →
      r.body = some "" ∧ headerGet r.header "Content-Type" = some "") :=
  ⟨(foldWriteField_preserves fd _).1,
   (foldWriteField_preserves fd _).2.1,
   fun hfd => foldWriteField_buffer_ne fd _ rfl hfd,
   fun r h => c9_helper env fd "POST" url (by decide) r h,
   fun r h => c9_helper env fd "PUT" url (by decide) r h,
   fun r h => c9_helper env fd "PATCH" url (by decide) r h,
   fun r h => c9_helper env fd "DELETE" url (by decide) r h,
   fun r h => c9_helper env fd "HEAD" url (by decide) r h,
   fun r h => c9_helper env fd "OPTIONS" url (by decide) r h⟩

/-- Witness for C9: one registered field, then POST: the buffer holds the
part, yet the request sent carries an empty body and an empty content type. -/
theorem c9_witness :
    ((NewRequest []).MultipartFormData [("a", "1")]).core.multipartBuffer ≠ "" ∧
    ({ method := "POST", url := "u", body := some "", header := [("Content-Type", "")],
       host := "example.com", ctx := none } : HttpRequest).body = some "" ∧
    headerGet ({ method := "POST", url := "u", body := some "",
                 header := [("Content-Type", "")], host := "example.com",
                 ctx := none } : HttpRequest).header "Content-Type" = some "" :=
  ⟨(c9_multipart_fields_dropped envOk [("a", "1")] "u").2.2.1 (by decide),
   ((c9_multipart_fields_dropped envOk [("a", "1")] "u").2.2.2.1 _ (by decide)).1,
   ((c9_multipart_fields_dropped envOk [("a", "1")] "u").2.2.2.1 _ (by decide)).2⟩

/-- C10: `MultipartFormData` and `Uploads` iterate a Go map, whose iteration
order varies between runs: for a two-entry map there are two iteration
orders (permutations of the same map) that produce different multipart
bodies (first two conjuncts), while for maps with at most one entry every
iteration order produces the same builder (last two conjuncts). -/
theorem c10_map_iteration_nondeterministic :
    (∃ fd1 fd2 : List (String × String), fd1.Perm fd2 ∧ (fd1.map Prod.fst).Nodup ∧
      fd1.length = 2 ∧
      ((NewRequest []).MultipartFormData fd1).core.multipartBuffer
        ≠ ((NewRequest []).MultipartFormData fd2).core.multipartBuffer) ∧
    (∃ fs1 fs2 : List (String × String), fs1.Perm fs2 ∧ (fs1.map Prod.fst).Nodup ∧
      fs1.length = 2 ∧
      (Request.Uploads fsTwo (NewRequest []) fs1).map Request.core
        ≠ (Request.Uploads fsTwo (NewRequest []) fs2).map Request.core) ∧
    (∀ fd1 fd2 : List (String × String), fd1.Perm fd2 → fd1.length ≤ 1 →
      (NewRequest []).MultipartFormData fd1 = (NewRequest []).MultipartFormData fd2) ∧
    (∀ fs : String → Option String, ∀ fs1 fs2 : List (String × String), fs1.Perm fs2 →
      fs1.length ≤ 1 →
      Request.Uploads fs (NewRequest []) fs1 = Request.Uploads fs (NewRequest []) fs2) := by
  refine ⟨⟨[("a", "1"), ("b", "2")], [("b", "2"), ("a", "1")],
      by decide, by decide, by decide, by decide⟩,
    ⟨[("f1", "p1"), ("f2", "p2")], [("f2", "p2"), ("f1", "p1")],
      by decide, by decide, by decide, by decide⟩, ?_, ?_⟩
  · intro fd1 fd2 hp hlen
    rcases fd1 with _ | ⟨a, _ | ⟨b, rest⟩⟩
    · rw [(hp.symm).eq_nil]
    · rw [List.singleton_perm.mp hp]
    · simp at hlen
  · intro fs fs1 fs2 hp hlen
    rcases fs1 with _ | ⟨a, _ | ⟨b, rest⟩⟩
    · rw [(hp.symm).eq_nil]
    · rw [List.singleton_perm.mp hp]
    · simp at hlen

/-- Witness for C10: the determinism conjunct instantiated at a one-entry
map, which every iteration order writes identically. -/
theorem c10_witness :
    (NewRequest []).MultipartFormData [("a", "1")]
      = (NewRequest []).MultipartFormData [("a", "1")] :=
  c10_map_iteration_nondeterministic.2.2.1 [("a", "1")] [("a", "1")]
    (List.Perm.refl _) (by decide)

end GoHttp
